import Mathlib

/-!
Shallow embedding of the turn-guidance classification toolkit
(include/extractor/guidance/toolkit.hpp) of a road-network routing engine,
together with theorems checking the natural-language specification of the
toolkit against the embedded code.

Strings are embedded as `List Char`, machine floating-point distances and
angles as `ℚ`, and the external great-circle-distance and linear-interpolation
routines (which live outside this header) as arbitrary function parameters.
-/

namespace Guidance

/-- Modelled from the spec: the suffix table (extractor/suffix_table.hpp is not
part of the embedded sources) "exposes an `is this lower-cased token a known
suffix` predicate" over a static set of lower-cased tokens.  We model the table
as the list of its tokens. -/
abbrev SuffixTable := List (List Char)

/-- Modelled from the spec: `SuffixTable::isSuffix` is membership of a
lower-cased token in the static token set. -/
def isSuffix (table : SuffixTable) (str : List Char) : Bool :=
  decide (str ∈ table)

/-- `std::string::find_first_of(c)` as an `Option Nat` (`none` plays the role
of `std::string::npos`). -/
def find_first_of (c : Char) (data : List Char) : Option Nat :=
  data.findIdx? (fun d => d == c)

/-- `std::string::find_last_of(c)` as an `Option Nat`. -/
def find_last_of (c : Char) (data : List Char) : Option Nat :=
  (data.reverse.findIdx? (fun d => d == c)).map (fun j => data.length - 1 - j)

/-- `boost::to_lower` over the ASCII range, character by character. -/
def to_lower (data : List Char) : List Char :=
  data.map Char.toLower

/-- Embeds `getPrefixAndSuffix` (toolkit.hpp lines 157-168): if the string
contains no space, return a pair of empty strings; otherwise return the
lower-cased text before the first space and the lower-cased text after the
last space.  `substr(0, prefix_pos)` clamps a not-found (`npos`) position to
the whole string, hence the `getD data.length`. -/
def getPrefixAndSuffix (data : List Char) : List Char × List Char :=
  match find_last_of ' ' data with
  | none => ([], [])
  | some suffix_pos =>
      let prefix_pos := (find_first_of ' ' data).getD data.length
      (to_lower (data.take prefix_pos), to_lower (data.drop (suffix_pos + 1)))

/-- The `checkTable` lambda inside `checkForPrefixOrSuffixChange`
(toolkit.hpp lines 217-219): a token qualifies if it is empty or is a known
suffix. -/
def checkTable (table : SuffixTable) (str : List Char) : Bool :=
  str.isEmpty || isSuffix table str

/-- Embeds `checkForPrefixOrSuffixChange` (toolkit.hpp lines 211-246).  The
source guards each branch by testing the FIRST argument's token twice (the
second occurrence is a verbatim repetition of the first), then compares the
remaining stems via `std::string::compare` with substring ranges; both quirks
are reproduced here. -/
def checkForPrefixOrSuffixChange (first second : List Char)
    (suffix_table : SuffixTable) : Bool :=
  let first_pas := getPrefixAndSuffix first
  let second_pas := getPrefixAndSuffix second
  let is_prefix_change : Bool :=
    if !(checkTable suffix_table first_pas.1) then false
    else if !(checkTable suffix_table first_pas.1) then false
    else decide (first.drop first_pas.1.length = second.drop second_pas.1.length)
  let is_suffix_change : Bool :=
    if !(checkTable suffix_table first_pas.2) then false
    else if !(checkTable suffix_table first_pas.2) then false
    else decide (first.take (first.length - first_pas.2.length) =
                 second.take (second.length - second_pas.2.length))
  is_prefix_change || is_suffix_change

/-- `std::string::npos` for 64-bit `size_t`. -/
def NPOS : Nat := 2 ^ 64 - 1

/-- Embeds the `split` lambda of `requiresNameAnnounced` (toolkit.hpp lines
188-201).  `out_name`/`out_ref` start out empty; when an opening parenthesis
is found at a position other than 0, `out_name` becomes
`name.substr(0, ref_begin - 1)` (the last character before the parenthesis is
dropped unconditionally), and `out_ref` becomes
`name.substr(ref_begin + 1, ref_end - ref_begin - 1)` where the count is
computed in wrapping `size_t` arithmetic (`ref_end` is `npos` when there is no
closing parenthesis) and `substr` clamps the count to the end of the string. -/
def split (name : List Char) : List Char × List Char :=
  match find_first_of '(' name with
  | none => (name, [])
  | some ref_begin =>
      let out_name := if ref_begin ≠ 0 then name.take (ref_begin - 1) else []
      let ref_end := (find_first_of ')' name).getD NPOS
      let out_ref :=
        (name.drop (ref_begin + 1)).take ((ref_end + 2 ^ 64 - (ref_begin + 1)) % 2 ^ 64)
      (out_name, out_ref)

/-- Embeds `requiresNameAnnounced` (toolkit.hpp lines 170-264), the monolithic
translation of the source body. -/
def requiresNameAnnounced (from_s to_s : List Char) (suffix_table : SuffixTable) :
    Bool :=
  if from_s.isEmpty && !to_s.isEmpty then true
  else
    let from_pair := split from_s
    let to_pair := split to_s
    let from_name := from_pair.1
    let from_ref := from_pair.2
    let to_name := to_pair.1
    let to_ref := to_pair.2
    let names_are_empty := from_name.isEmpty && to_name.isEmpty
    let name_is_contained :=
      decide (to_name <+: from_name) || decide (from_name <+: to_name)
    let is_suffix_change := checkForPrefixOrSuffixChange from_name to_name suffix_table
    let names_are_equal :=
      decide (from_name = to_name) || name_is_contained || is_suffix_change
    let name_is_removed := !from_name.isEmpty && to_name.isEmpty
    let refs_are_empty := from_ref.isEmpty && to_ref.isEmpty
    let ref_is_contained :=
      from_ref.isEmpty || to_ref.isEmpty ||
        (decide (to_ref <:+: from_ref) || decide (from_ref <:+: to_ref))
    let ref_is_removed := !from_ref.isEmpty && to_ref.isEmpty
    let obvious_change :=
      (names_are_empty && refs_are_empty) || (names_are_equal && ref_is_contained) ||
      (names_are_equal && refs_are_empty) || (ref_is_contained && name_is_removed) ||
      (names_are_equal && ref_is_removed) || is_suffix_change
    !obvious_change

/-! ### Geometry interpolator -/

/-- A geographic coordinate (util/coordinate.hpp is outside the embedded
sources; the spec's data model gives longitude and latitude). -/
structure Coordinate where
  lon : ℚ
  lat : ℚ
deriving DecidableEq, Repr

/-- Modelled from the spec: a `QueryNode` (extractor/query_node.hpp is not
part of the embedded sources) carries a node's longitude and latitude; only
those two fields are read by the toolkit. -/
structure QueryNode where
  lon : ℚ
  lat : ℚ
deriving DecidableEq, Repr

instance : Inhabited QueryNode := ⟨⟨0, 0⟩⟩

/-- The `extractCoordinateFromNode` lambda (toolkit.hpp lines 56-59 and
121-124). -/
def extractCoordinateFromNode (node : QueryNode) : Coordinate :=
  ⟨node.lon, node.lat⟩

/-- Modelled from the spec: one entry of a compressed-edge bucket
(extractor/compressed_edge_container.hpp is not part of the embedded sources),
"an ordered bucket of intermediate (node id, weight) pairs"; the toolkit reads
only the node id. -/
structure CompressedEdge where
  node_id : Nat
  weight : ℚ
deriving DecidableEq, Repr

/-- `detail::DESIRED_SEGMENT_LENGTH` (toolkit.hpp line 46). -/
def DESIRED_SEGMENT_LENGTH : ℚ := 10

/-- The `getFactor` lambda (toolkit.hpp lines 64-71): the fraction of the
current segment needed to reach `DESIRED_SEGMENT_LENGTH`, clamped to
`[0, 1]`. -/
def getFactor (first_distance second_distance : ℚ) : ℚ :=
  let segment_length := second_distance - first_distance
  let missing_distance := DESIRED_SEGMENT_LENGTH - first_distance
  max 0 (min (missing_distance / segment_length) 1)

/-- Embeds `detail::getCoordinateFromCompressedRange` (toolkit.hpp lines
48-108).  The external `haversineDistance` and `interpolateLinear` routines
(util/coordinate_calculation.hpp, outside the embedded sources) are passed in
as arbitrary functions `dist` and `interpolateLinear`; the loop over the
compressed geometry becomes structural recursion carrying the loop state
(`current_coordinate`, `distance_to_current_coordinate`). -/
def getCoordinateFromCompressedRange
    (dist : Coordinate → Coordinate → ℚ)
    (interpolateLinear : ℚ → Coordinate → Coordinate → Coordinate)
    (query_nodes : List QueryNode)
    (current_coordinate : Coordinate)
    (distance_to_current_coordinate : ℚ)
    (compressed_geometry : List CompressedEdge)
    (final_coordinate : Coordinate) : Coordinate :=
  match compressed_geometry with
  | [] =>
      let distance_to_next_coordinate :=
        distance_to_current_coordinate + dist current_coordinate final_coordinate
      if distance_to_current_coordinate < DESIRED_SEGMENT_LENGTH ∧
         distance_to_next_coordinate ≥ DESIRED_SEGMENT_LENGTH then
        interpolateLinear
          (getFactor distance_to_current_coordinate distance_to_next_coordinate)
          current_coordinate final_coordinate
      else
        final_coordinate
  | entry :: rest =>
      let next_coordinate :=
        extractCoordinateFromNode (query_nodes.getD entry.node_id default)
      let distance_to_next_coordinate :=
        distance_to_current_coordinate + dist current_coordinate next_coordinate
      if distance_to_next_coordinate ≥ DESIRED_SEGMENT_LENGTH then
        interpolateLinear
          (getFactor distance_to_current_coordinate distance_to_next_coordinate)
          current_coordinate next_coordinate
      else
        getCoordinateFromCompressedRange dist interpolateLinear query_nodes
          next_coordinate distance_to_next_coordinate rest final_coordinate

/-- The loop state of `getCoordinateFromCompressedRange` at loop exit:
`some (current_coordinate, accumulated distance)` when the walk consumes the
whole compressed geometry without triggering the in-loop early return, `none`
when the early return fires. -/
def walkEnd
    (dist : Coordinate → Coordinate → ℚ)
    (query_nodes : List QueryNode)
    (current_coordinate : Coordinate)
    (distance_to_current_coordinate : ℚ)
    (compressed_geometry : List CompressedEdge) : Option (Coordinate × ℚ) :=
  match compressed_geometry with
  | [] => some (current_coordinate, distance_to_current_coordinate)
  | entry :: rest =>
      let next_coordinate :=
        extractCoordinateFromNode (query_nodes.getD entry.node_id default)
      let distance_to_next_coordinate :=
        distance_to_current_coordinate + dist current_coordinate next_coordinate
      if distance_to_next_coordinate ≥ DESIRED_SEGMENT_LENGTH then none
      else walkEnd dist query_nodes next_coordinate distance_to_next_coordinate rest

/-- The arguments of every call `getCoordinateFromCompressedRange` makes to
`getFactor`, in the order the calls happen (at most one call occurs). -/
def getFactorCalls
    (dist : Coordinate → Coordinate → ℚ)
    (query_nodes : List QueryNode)
    (current_coordinate : Coordinate)
    (distance_to_current_coordinate : ℚ)
    (compressed_geometry : List CompressedEdge)
    (final_coordinate : Coordinate) : List (ℚ × ℚ) :=
  match compressed_geometry with
  | [] =>
      let distance_to_next_coordinate :=
        distance_to_current_coordinate + dist current_coordinate final_coordinate
      if distance_to_current_coordinate < DESIRED_SEGMENT_LENGTH ∧
         distance_to_next_coordinate ≥ DESIRED_SEGMENT_LENGTH then
        [(distance_to_current_coordinate, distance_to_next_coordinate)]
      else []
  | entry :: rest =>
      let next_coordinate :=
        extractCoordinateFromNode (query_nodes.getD entry.node_id default)
      let distance_to_next_coordinate :=
        distance_to_current_coordinate + dist current_coordinate next_coordinate
      if distance_to_next_coordinate ≥ DESIRED_SEGMENT_LENGTH then
        [(distance_to_current_coordinate, distance_to_next_coordinate)]
      else
        getFactorCalls dist query_nodes next_coordinate distance_to_next_coordinate
          rest final_coordinate

/-- Embeds `getRepresentativeCoordinate` (toolkit.hpp lines 113-149).  The
compressed-edge container's `HasEntryForID`/`GetBucketReference` pair is
modelled as a function from edge ids to `Option` buckets; traversing in
reverse walks the reversed bucket (`rbegin`/`rend`). -/
def getRepresentativeCoordinate
    (dist : Coordinate → Coordinate → ℚ)
    (interpolateLinear : ℚ → Coordinate → Coordinate → Coordinate)
    (from_node to_node : Nat) (via_edge_id : Nat)
    (traverse_in_reverse : Bool)
    (compressed_geometries : Nat → Option (List CompressedEdge))
    (query_nodes : List QueryNode) : Coordinate :=
  match compressed_geometries via_edge_id with
  | none =>
      extractCoordinateFromNode
        (query_nodes.getD (if traverse_in_reverse then from_node else to_node) default)
  | some geometry =>
      let base_node_id := if traverse_in_reverse then to_node else from_node
      let base_coordinate :=
        extractCoordinateFromNode (query_nodes.getD base_node_id default)
      let final_node := if traverse_in_reverse then from_node else to_node
      let final_coordinate :=
        extractCoordinateFromNode (query_nodes.getD final_node default)
      if traverse_in_reverse then
        getCoordinateFromCompressedRange dist interpolateLinear query_nodes
          base_coordinate 0 geometry.reverse final_coordinate
      else
        getCoordinateFromCompressedRange dist interpolateLinear query_nodes
          base_coordinate 0 geometry final_coordinate

/-- The arguments of every `getFactor` call made by a
`getRepresentativeCoordinate` invocation. -/
def representativeGetFactorCalls
    (dist : Coordinate → Coordinate → ℚ)
    (from_node to_node : Nat) (via_edge_id : Nat)
    (traverse_in_reverse : Bool)
    (compressed_geometries : Nat → Option (List CompressedEdge))
    (query_nodes : List QueryNode) : List (ℚ × ℚ) :=
  match compressed_geometries via_edge_id with
  | none => []
  | some geometry =>
      let base_node_id := if traverse_in_reverse then to_node else from_node
      let base_coordinate :=
        extractCoordinateFromNode (query_nodes.getD base_node_id default)
      let final_node := if traverse_in_reverse then from_node else to_node
      let final_coordinate :=
        extractCoordinateFromNode (query_nodes.getD final_node default)
      getFactorCalls dist query_nodes base_coordinate 0
        (if traverse_in_reverse then geometry.reverse else geometry) final_coordinate

/-! ### Turn instructions, mirror, roundabout classification -/

/-- Modelled from the spec: the turn-type enumeration
(extractor/guidance/turn_instruction.hpp is not part of the embedded sources),
a "small closed categorical set" of turn categories comprising the thirteen
roundabout/rotary categories named in toolkit.hpp plus the non-roundabout
categories (straight, turn variants, fork, ...). -/
inductive TurnType where
  | Invalid
  | NoTurn
  | Suppressed
  | NewName
  | Continue
  | Turn
  | Merge
  | OnRamp
  | OffRamp
  | Fork
  | EndOfRoad
  | Notification
  | EnterRoundabout
  | EnterAndExitRoundabout
  | EnterRotary
  | EnterAndExitRotary
  | EnterRoundaboutIntersection
  | EnterAndExitRoundaboutIntersection
  | EnterRoundaboutAtExit
  | ExitRoundabout
  | EnterRotaryAtExit
  | ExitRotary
  | EnterRoundaboutIntersectionAtExit
  | ExitRoundaboutIntersection
  | StayOnRoundabout
deriving DecidableEq, Repr

/-- Modelled from the spec: the direction-modifier enumeration
(extractor/guidance/turn_instruction.hpp is not part of the embedded sources),
"UTurn..SharpRight, 8 values", a "symmetric ordered set around Straight";
constructor order is the enumeration's ordinal order, which the
`mirrored_modifiers` lookup table in toolkit.hpp indexes by. -/
inductive DirectionModifier where
  | UTurn
  | SharpRight
  | Right
  | SlightRight
  | Straight
  | SlightLeft
  | Left
  | SharpLeft
deriving DecidableEq, Repr

/-- Modelled from the spec: a `TurnInstruction` is a "turn type" together with
a "direction modifier" (declaration not part of the embedded sources). -/
structure TurnInstruction where
  type : TurnType
  direction_modifier : DirectionModifier
deriving DecidableEq, Repr

/-- Modelled from the spec: a `ConnectedRoad`'s turn carries the "turn angle
(0-360°, measured from straight-ahead)" and its `TurnInstruction`
(extractor/guidance/intersection.hpp is not part of the embedded sources). -/
structure TurnOperation where
  angle : ℚ
  instruction : TurnInstruction
deriving DecidableEq, Repr

/-- Modelled from the spec: a candidate outgoing turn at an intersection; the
toolkit reads and rewrites only its `turn` field. -/
structure ConnectedRoad where
  turn : TurnOperation
deriving DecidableEq, Repr

/-- Modelled from the spec: `util::guidance::angularDeviation`
(util/guidance/toolkit.hpp is not part of the embedded sources), the circular
deviation between two angles: `min(|a - b|, 360 - |a - b|)`. -/
def angularDeviation (angle base : ℚ) : ℚ :=
  let deviation := |angle - base|
  min (360 - deviation) deviation

/-- `std::numeric_limits<double>::epsilon()` as an exact rational. -/
def DOUBLE_EPSILON : ℚ := 1 / 2 ^ 52

/-- The `mirrored_modifiers` lookup table (toolkit.hpp lines 291-298),
written as a function of the indexing ordinal. -/
def mirrored_modifiers : DirectionModifier → DirectionModifier
  | .UTurn => .UTurn
  | .SharpRight => .SharpLeft
  | .Right => .Left
  | .SlightRight => .SlightLeft
  | .Straight => .Straight
  | .SlightLeft => .SlightRight
  | .Left => .Right
  | .SharpLeft => .SharpRight

/-- Embeds `mirror` (toolkit.hpp lines 289-307). -/
def mirror (road : ConnectedRoad) : ConnectedRoad :=
  if angularDeviation road.turn.angle 0 > DOUBLE_EPSILON then
    { road with
        turn :=
          { road.turn with
              angle := 360 - road.turn.angle,
              instruction :=
                { road.turn.instruction with
                    direction_modifier :=
                      mirrored_modifiers road.turn.instruction.direction_modifier } } }
  else road

/-- The `valid_types` array of `hasRoundaboutType` (toolkit.hpp lines
312-324): the thirteen roundabout/rotary turn categories. -/
def roundabout_valid_types : List TurnType :=
  [TurnType.EnterRoundabout,
   TurnType.EnterAndExitRoundabout,
   TurnType.EnterRotary,
   TurnType.EnterAndExitRotary,
   TurnType.EnterRoundaboutIntersection,
   TurnType.EnterAndExitRoundaboutIntersection,
   TurnType.EnterRoundaboutAtExit,
   TurnType.ExitRoundabout,
   TurnType.EnterRotaryAtExit,
   TurnType.ExitRotary,
   TurnType.EnterRoundaboutIntersectionAtExit,
   TurnType.ExitRoundaboutIntersection,
   TurnType.StayOnRoundabout]

/-- Embeds `hasRoundaboutType` (toolkit.hpp lines 309-327): linear search of
the instruction's type in the 13-entry `valid_types` array. -/
def hasRoundaboutType (instruction : TurnInstruction) : Bool :=
  decide (instruction.type ∈ roundabout_valid_types)

/-- Embeds `entersRoundabout` (toolkit.hpp lines 377-388).  The source's
disjunction lists `EnterAndExitRotary` twice (its last line repeats the
previous one verbatim) and never mentions
`EnterAndExitRoundaboutIntersection`; both quirks are reproduced here. -/
def entersRoundabout (instruction : TurnInstruction) : Bool :=
  decide (instruction.type = TurnType.EnterRoundabout) ||
  decide (instruction.type = TurnType.EnterRotary) ||
  decide (instruction.type = TurnType.EnterRoundaboutIntersection) ||
  decide (instruction.type = TurnType.EnterRoundaboutAtExit) ||
  decide (instruction.type = TurnType.EnterRotaryAtExit) ||
  decide (instruction.type = TurnType.EnterRoundaboutIntersectionAtExit) ||
  decide (instruction.type = TurnType.EnterAndExitRoundabout) ||
  decide (instruction.type = TurnType.EnterAndExitRotary) ||
  decide (instruction.type = TurnType.EnterAndExitRotary)

/-- Embeds `leavesRoundabout` (toolkit.hpp lines 390-398). -/
def leavesRoundabout (instruction : TurnInstruction) : Bool :=
  decide (instruction.type = TurnType.ExitRoundabout) ||
  decide (instruction.type = TurnType.ExitRotary) ||
  decide (instruction.type = TurnType.ExitRoundaboutIntersection) ||
  decide (instruction.type = TurnType.EnterAndExitRoundabout) ||
  decide (instruction.type = TurnType.EnterAndExitRotary) ||
  decide (instruction.type = TurnType.EnterAndExitRoundaboutIntersection)

/-! ### Lane string trimmer -/

/-- The placeholder test of `trimLaneString` (toolkit.hpp lines 347 and 365):
a character counts as a lane placeholder if it is `|` or `&`. -/
def isLanePlaceholder (c : Char) : Bool :=
  c == '|' || c == '&'

/-- Embeds `trimLaneString` (toolkit.hpp lines 338-375).  Counts are the
source's signed 32-bit integers, embedded as `Int`.  For each side, trimming
happens only when the count is non-zero, strictly smaller than the current
string length, and every scanned character (the first `count_left` from the
front, respectively the last `count_right` from the back) is a placeholder;
otherwise that side is left untouched. -/
def trimLaneString (lane_string : List Char) (count_left count_right : Int) :
    List Char :=
  let left_trimmed :=
    if count_left ≠ 0 then
      if count_left < (lane_string.length : Int) ∧
         (lane_string.take count_left.toNat).all isLanePlaceholder = true then
        lane_string.drop count_left.toNat
      else lane_string
    else lane_string
  if count_right ≠ 0 then
    if count_right < (left_trimmed.length : Int) ∧
       (left_trimmed.reverse.take count_right.toNat).all isLanePlaceholder = true then
      left_trimmed.take (left_trimmed.length - count_right.toNat)
    else left_trimmed
  else left_trimmed

/-! ### Spec-side signal definitions (step 3 of the name-announcement policy) -/

/-- Spec signal `names_are_empty`: both parsed names are empty. -/
def names_are_empty (from_name to_name : List Char) : Bool :=
  from_name.isEmpty && to_name.isEmpty

/-- Spec signal `name_is_contained`: one parsed name is a literal prefix of
the other. -/
def name_is_contained (from_name to_name : List Char) : Bool :=
  decide (to_name <+: from_name) || decide (from_name <+: to_name)

/-- Spec signal `names_are_equal`: exact match, or containment, or a
suffix/prefix change. -/
def names_are_equal (from_name to_name : List Char) (suffix_table : SuffixTable) :
    Bool :=
  decide (from_name = to_name) || name_is_contained from_name to_name ||
    checkForPrefixOrSuffixChange from_name to_name suffix_table

/-- Spec signal `name_is_removed`: from-name non-empty and to-name empty. -/
def name_is_removed (from_name to_name : List Char) : Bool :=
  !from_name.isEmpty && to_name.isEmpty

/-- Spec signal `refs_are_empty`: both parsed references are empty. -/
def refs_are_empty (from_ref to_ref : List Char) : Bool :=
  from_ref.isEmpty && to_ref.isEmpty

/-- Spec signal `ref_is_contained`: either reference is empty, or one is a
literal substring of the other. -/
def ref_is_contained (from_ref to_ref : List Char) : Bool :=
  from_ref.isEmpty || to_ref.isEmpty ||
    (decide (to_ref <:+: from_ref) || decide (from_ref <:+: to_ref))

/-- Spec signal `ref_is_removed`: from-reference non-empty and to-reference
empty. -/
def ref_is_removed (from_ref to_ref : List Char) : Bool :=
  !from_ref.isEmpty && to_ref.isEmpty

/-- The spec's `obvious_change` disjunction (step 4 of the name-announcement
policy), assembled from the step-3 signals over the parsed name/reference
pairs, with the suffix-change signal computed by
`checkForPrefixOrSuffixChange`. -/
def obvious_change (from_s to_s : List Char) (suffix_table : SuffixTable) : Bool :=
  let from_pair := split from_s
  let to_pair := split to_s
  (names_are_empty from_pair.1 to_pair.1 && refs_are_empty from_pair.2 to_pair.2) ||
  (names_are_equal from_pair.1 to_pair.1 suffix_table &&
    ref_is_contained from_pair.2 to_pair.2) ||
  (names_are_equal from_pair.1 to_pair.1 suffix_table &&
    refs_are_empty from_pair.2 to_pair.2) ||
  (ref_is_contained from_pair.2 to_pair.2 && name_is_removed from_pair.1 to_pair.1) ||
  (names_are_equal from_pair.1 to_pair.1 suffix_table &&
    ref_is_removed from_pair.2 to_pair.2) ||
  checkForPrefixOrSuffixChange from_pair.1 to_pair.1 suffix_table

/-- C1: `requiresNameAnnounced` returns true whenever the raw `from` string is
empty and the raw `to` string is non-empty, and otherwise returns the negation
of the spec's `obvious_change` disjunction — `(names_are_empty AND
refs_are_empty) OR (names_are_equal AND ref_is_contained) OR (names_are_equal
AND refs_are_empty) OR (ref_is_contained AND name_is_removed) OR
(names_are_equal AND ref_is_removed) OR is_suffix_change` — over the boolean
signals computed from the parsed (name, reference) pairs. -/
theorem requiresNameAnnounced_eq_spec_formula
    (from_s to_s : List Char) (suffix_table : SuffixTable) :
    requiresNameAnnounced from_s to_s suffix_table =
      if from_s.isEmpty && !to_s.isEmpty then true
      else !(obvious_change from_s to_s suffix_table) := by
  rfl

/-- C2: the combined enter-and-exit type `EnterAndExitRoundaboutIntersection`
is classified by the embedded code as leaving but NOT entering a roundabout —
the `entersRoundabout` disjunction repeats `EnterAndExitRotary` twice instead
of naming it — although it is one of the 13 roundabout categories; the other
two combined types are classified as both entering and leaving. -/
theorem enterAndExitRoundaboutIntersection_evaluation :
    entersRoundabout
        ⟨TurnType.EnterAndExitRoundaboutIntersection, DirectionModifier.Straight⟩ =
      false ∧
    leavesRoundabout
        ⟨TurnType.EnterAndExitRoundaboutIntersection, DirectionModifier.Straight⟩ =
      true ∧
    hasRoundaboutType
        ⟨TurnType.EnterAndExitRoundaboutIntersection, DirectionModifier.Straight⟩ =
      true ∧
    (entersRoundabout ⟨TurnType.EnterAndExitRoundabout, DirectionModifier.Straight⟩ &&
       leavesRoundabout ⟨TurnType.EnterAndExitRoundabout, DirectionModifier.Straight⟩) =
      true ∧
    (entersRoundabout ⟨TurnType.EnterAndExitRotary, DirectionModifier.Straight⟩ &&
       leavesRoundabout ⟨TurnType.EnterAndExitRotary, DirectionModifier.Straight⟩) =
      true := by
  decide

/-- C3 counterexample: with the suffix table {"street"}, the suffix-change
signal fires for "Main Street" → "Main Blvd" even though the second name's
stripped last token "blvd" is non-empty and absent from the table (and its
first token "main" is too): the embedded code validates only the first name's
token, twice. -/
theorem suffix_change_second_token_unchecked :
    checkForPrefixOrSuffixChange ("Main Street".toList) ("Main Blvd".toList)
        [("street".toList)] = true ∧
    (getPrefixAndSuffix ("Main Blvd".toList)).2 ≠ [] ∧
    isSuffix [("street".toList)] ((getPrefixAndSuffix ("Main Blvd".toList)).2) =
      false ∧
    (getPrefixAndSuffix ("Main Blvd".toList)).1 ≠ [] ∧
    isSuffix [("street".toList)] ((getPrefixAndSuffix ("Main Blvd".toList)).1) =
      false := by
  decide

/-- C3 amended: the suffix-change signal used by `requiresNameAnnounced` is
the disjunction of a prefix branch and a suffix branch; each branch requires
that the FIRST name's stripped token qualifies — is empty or present in the
suffix table — (the guard is evaluated twice on that same token; the second
name's token is never validated) and that the remaining stems are equal. -/
theorem checkForPrefixOrSuffixChange_first_token_only
    (first second : List Char) (suffix_table : SuffixTable) :
    checkForPrefixOrSuffixChange first second suffix_table =
      ((checkTable suffix_table (getPrefixAndSuffix first).1 &&
          decide (first.drop (getPrefixAndSuffix first).1.length =
                  second.drop (getPrefixAndSuffix second).1.length)) ||
       (checkTable suffix_table (getPrefixAndSuffix first).2 &&
          decide (first.take (first.length - (getPrefixAndSuffix first).2.length) =
                  second.take (second.length - (getPrefixAndSuffix second).2.length)))) := by
  simp only [checkForPrefixOrSuffixChange]
  cases hp : checkTable suffix_table (getPrefixAndSuffix first).1 <;>
    cases hs : checkTable suffix_table (getPrefixAndSuffix first).2 <;>
      simp [hp, hs]

/-- Definition following the spec's words, for comparison with the
source-derived `split`: the name part of the "Name (Ref)" parse is the text
before the opening parenthesis trimmed of one trailing space (only a trailing
space, not an arbitrary last character, is removed), or the whole string when
there is no parenthesis. -/
def splitNameAsSpecified (s : List Char) : List Char :=
  match find_first_of '(' s with
  | none => s
  | some ref_begin =>
      let before := s.take ref_begin
      if before.getLast? = some ' ' then before.dropLast else before

/-- C4 counterexample: on the input "ab(c)" — an opening parenthesis not at
position 0 with no space before it — the embedded `split` removes the
arbitrary last character 'b' before the parenthesis, while the claimed
trailing-space-only trimming would keep "ab". -/
theorem split_name_not_space_trimmed :
    (split ("ab(c)".toList)).1 = ['a'] ∧
    splitNameAsSpecified ("ab(c)".toList) = ['a', 'b'] ∧
    (split ("ab(c)".toList)).1 ≠ splitNameAsSpecified ("ab(c)".toList) := by
  decide

/-- C4 amended: `split` parses by the "Name (Ref)" convention as follows.
With no opening parenthesis the whole string is the name and the reference is
empty.  With the first opening parenthesis at position `ref_begin`, the name
is the text before the parenthesis with its last character removed
unconditionally (that character is the trailing space exactly when the input
follows the convention; the name stays empty when `ref_begin` is 0), and the
reference is the text strictly between the opening parenthesis and the first
closing parenthesis when the latter comes after the former, otherwise all the
text after the opening parenthesis. -/
theorem split_characterization (s : List Char) (hlen : s.length < 2 ^ 32) :
    split s =
      match find_first_of '(' s with
      | none => (s, [])
      | some ref_begin =>
          ((if ref_begin = 0 then [] else s.take (ref_begin - 1)),
           match find_first_of ')' s with
           | none => s.drop (ref_begin + 1)
           | some ref_end =>
               if ref_begin + 1 ≤ ref_end then
                 (s.drop (ref_begin + 1)).take (ref_end - ref_begin - 1)
               else s.drop (ref_begin + 1)) := by
  rcases hb : find_first_of '(' s with _ | ref_begin
  · simp [split, hb]
  · have hblt : ref_begin < s.length := by
      have h' := hb
      simp only [find_first_of] at h'
      exact ((List.findIdx?_eq_some_iff_findIdx_eq).mp h').1
    simp only [split, hb]
    refine Prod.ext ?_ ?_
    · by_cases h0 : ref_begin = 0 <;> simp [h0]
    · rcases he : find_first_of ')' s with _ | ref_end
      · have hcount : (NPOS + 2 ^ 64 - (ref_begin + 1)) % 2 ^ 64 =
            2 ^ 64 - 2 - ref_begin := by
          simp only [NPOS]; omega
        simp only [he, Option.getD_none, hcount]
        apply List.take_of_length_le
        rw [List.length_drop]
        omega
      · have helt : ref_end < s.length := by
          have h' := he
          simp only [find_first_of] at h'
          exact ((List.findIdx?_eq_some_iff_findIdx_eq).mp h').1
        simp only [he, Option.getD_some]
        by_cases hbe : ref_begin + 1 ≤ ref_end
        · have hcount : (ref_end + 2 ^ 64 - (ref_begin + 1)) % 2 ^ 64 =
              ref_end - ref_begin - 1 := by omega
          rw [hcount, if_pos hbe]
        · have hcount : (ref_end + 2 ^ 64 - (ref_begin + 1)) % 2 ^ 64 =
              ref_end + 2 ^ 64 - (ref_begin + 1) := by omega
          rw [hcount, if_neg hbe]
          apply List.take_of_length_le
          rw [List.length_drop]
          omega

/-- C4 amended, witnessed at the concrete input "ab (c) d". -/
theorem split_characterization_witness :
    ("ab (c) d".toList).length < 2 ^ 32 ∧
    split ("ab (c) d".toList) =
      match find_first_of '(' ("ab (c) d".toList) with
      | none => (("ab (c) d".toList), [])
      | some ref_begin =>
          ((if ref_begin = 0 then [] else ("ab (c) d".toList).take (ref_begin - 1)),
           match find_first_of ')' ("ab (c) d".toList) with
           | none => ("ab (c) d".toList).drop (ref_begin + 1)
           | some ref_end =>
               if ref_begin + 1 ≤ ref_end then
                 (("ab (c) d".toList).drop (ref_begin + 1)).take (ref_end - ref_begin - 1)
               else ("ab (c) d".toList).drop (ref_begin + 1)) :=
  ⟨by decide, split_characterization ("ab (c) d".toList) (by decide)⟩

/-- The mirrored-modifiers lookup is an involution on direction modifiers. -/
theorem mirrored_modifiers_involutive (m : DirectionModifier) :
    mirrored_modifiers (mirrored_modifiers m) = m := by
  cases m <;> rfl

/-- C5: mirroring twice restores the original road exactly: for every
connected road whose turn angle lies in the valid range [0, 360],
`mirror (mirror road)` has the same direction modifier as `road` and the very
same turn angle (exact equality of the whole road, stronger than equality
within a floating-point epsilon). -/
theorem mirror_mirror_id (road : ConnectedRoad)
    (h0 : 0 ≤ road.turn.angle) (h1 : road.turn.angle ≤ 360) :
    mirror (mirror road) = road := by
  obtain ⟨⟨a, ⟨ty, dm⟩⟩⟩ := road
  dsimp only at h0 h1
  by_cases h : angularDeviation a 0 > DOUBLE_EPSILON
  · have hdev : angularDeviation (360 - a) 0 = angularDeviation a 0 := by
      simp only [angularDeviation, sub_zero]
      rw [abs_of_nonneg (by linarith : (0:ℚ) ≤ 360 - a), abs_of_nonneg h0]
      rw [show (360:ℚ) - (360 - a) = a by ring, min_comm]
    have hinner : mirror ⟨⟨a, ⟨ty, dm⟩⟩⟩ =
        ⟨⟨360 - a, ⟨ty, mirrored_modifiers dm⟩⟩⟩ := by
      rw [mirror, if_pos h]
    have houter : mirror ⟨⟨360 - a, ⟨ty, mirrored_modifiers dm⟩⟩⟩ =
        ⟨⟨360 - (360 - a), ⟨ty, mirrored_modifiers (mirrored_modifiers dm)⟩⟩⟩ := by
      rw [mirror]
      rw [if_pos (show angularDeviation (360 - a) 0 > DOUBLE_EPSILON from hdev ▸ h)]
    rw [hinner, houter, mirrored_modifiers_involutive,
      show (360:ℚ) - (360 - a) = a by ring]
  · have hinner : mirror ⟨⟨a, ⟨ty, dm⟩⟩⟩ = ⟨⟨a, ⟨ty, dm⟩⟩⟩ := by
      rw [mirror, if_neg h]
    rw [hinner, hinner]

/-- C5, witnessed at a 30-degree slight-right turn. -/
theorem mirror_mirror_id_witness :
    (0 : ℚ) ≤
        (ConnectedRoad.mk
            ⟨30, ⟨TurnType.Turn, DirectionModifier.SlightRight⟩⟩).turn.angle ∧
    (ConnectedRoad.mk
        ⟨30, ⟨TurnType.Turn, DirectionModifier.SlightRight⟩⟩).turn.angle ≤ 360 ∧
    mirror (mirror ⟨⟨30, ⟨TurnType.Turn, DirectionModifier.SlightRight⟩⟩⟩) =
      ⟨⟨30, ⟨TurnType.Turn, DirectionModifier.SlightRight⟩⟩⟩ :=
  ⟨by norm_num, by norm_num,
   mirror_mirror_id ⟨⟨30, ⟨TurnType.Turn, DirectionModifier.SlightRight⟩⟩⟩
     (by norm_num) (by norm_num)⟩

/-- Relates the loop-exit state to the post-loop code of
`getCoordinateFromCompressedRange`: whenever the walk consumes the whole
compressed geometry (no in-loop early return) starting below the target
distance, the final accumulated distance is still below the target and the
result is determined by the final segment alone. -/
theorem walkEnd_spec
    (dist : Coordinate → Coordinate → ℚ)
    (interpolateLinear : ℚ → Coordinate → Coordinate → Coordinate)
    (query_nodes : List QueryNode) (final_coordinate : Coordinate) :
    ∀ (compressed_geometry : List CompressedEdge) (cur : Coordinate) (acc : ℚ),
      acc < DESIRED_SEGMENT_LENGTH →
      ∀ (c : Coordinate) (a : ℚ),
        walkEnd dist query_nodes cur acc compressed_geometry = some (c, a) →
        a < DESIRED_SEGMENT_LENGTH ∧
        getCoordinateFromCompressedRange dist interpolateLinear query_nodes cur acc
            compressed_geometry final_coordinate =
          (if a + dist c final_coordinate ≥ DESIRED_SEGMENT_LENGTH then
            interpolateLinear (getFactor a (a + dist c final_coordinate)) c
              final_coordinate
          else final_coordinate) := by
  intro compressed_geometry
  induction compressed_geometry with
  | nil =>
      intro cur acc hacc c a hw
      simp only [walkEnd, Option.some.injEq, Prod.mk.injEq] at hw
      obtain ⟨rfl, rfl⟩ := hw
      refine ⟨hacc, ?_⟩
      simp only [getCoordinateFromCompressedRange]
      by_cases hge : acc + dist cur final_coordinate ≥ DESIRED_SEGMENT_LENGTH
      · rw [if_pos ⟨hacc, hge⟩, if_pos hge]
      · rw [if_neg (fun hh => hge hh.2), if_neg hge]
  | cons entry rest ih =>
      intro cur acc hacc c a hw
      simp only [walkEnd] at hw
      by_cases hge :
          acc + dist cur (extractCoordinateFromNode
              (query_nodes.getD entry.node_id default)) ≥ DESIRED_SEGMENT_LENGTH
      · rw [if_pos hge] at hw
        cases hw
      · rw [if_neg hge] at hw
        have hstep := ih (extractCoordinateFromNode
            (query_nodes.getD entry.node_id default)) _ (lt_of_not_ge hge) c a hw
        refine ⟨hstep.1, ?_⟩
        simp only [getCoordinateFromCompressedRange]
        rw [if_neg hge]
        exact hstep.2

/-- C6: if the walk over a compressed edge's intermediate geometry reaches the
end with accumulated distance still below the 10-unit target, then
`getCoordinateFromCompressedRange` returns the linear interpolation on the
final segment at the remaining-distance factor when adding the final segment
reaches or exceeds the target, and returns the final endpoint coordinate
exactly (never a point beyond the edge) when even the total edge length stays
below the target. -/
theorem getCoordinateFromCompressedRange_final_segment
    (dist : Coordinate → Coordinate → ℚ)
    (interpolateLinear : ℚ → Coordinate → Coordinate → Coordinate)
    (query_nodes : List QueryNode)
    (current_coordinate final_coordinate : Coordinate)
    (compressed_geometry : List CompressedEdge) (c : Coordinate) (a : ℚ)
    (hwalk : walkEnd dist query_nodes current_coordinate 0 compressed_geometry =
      some (c, a)) :
    a < DESIRED_SEGMENT_LENGTH ∧
    getCoordinateFromCompressedRange dist interpolateLinear query_nodes
        current_coordinate 0 compressed_geometry final_coordinate =
      (if a + dist c final_coordinate ≥ DESIRED_SEGMENT_LENGTH then
        interpolateLinear (getFactor a (a + dist c final_coordinate)) c
          final_coordinate
      else final_coordinate) :=
  walkEnd_spec dist interpolateLinear query_nodes final_coordinate
    compressed_geometry current_coordinate 0 (by norm_num [DESIRED_SEGMENT_LENGTH])
    c a hwalk

/-- A concrete stand-in for the external great-circle distance, used to
instantiate the abstract distance parameter in witnesses. -/
def sampleDist (a b : Coordinate) : ℚ :=
  b.lon - a.lon + (b.lat - a.lat)

/-- A concrete stand-in for the external linear interpolation, used to
instantiate the abstract interpolation parameter in witnesses. -/
def sampleInterpolate (factor : ℚ) (a b : Coordinate) : Coordinate :=
  ⟨a.lon + factor * (b.lon - a.lon), a.lat + factor * (b.lat - a.lat)⟩

/-- C6, witnessed on a two-segment edge whose intermediate geometry stops 6
units in and whose final segment crosses the 10-unit target. -/
theorem getCoordinateFromCompressedRange_final_segment_witness :
    walkEnd sampleDist [⟨0, 0⟩, ⟨0, 6⟩] ⟨0, 0⟩ 0 [⟨1, 1⟩] = some (⟨0, 6⟩, 6) ∧
    ((6 : ℚ) < DESIRED_SEGMENT_LENGTH ∧
     getCoordinateFromCompressedRange sampleDist sampleInterpolate
         [⟨0, 0⟩, ⟨0, 6⟩] ⟨0, 0⟩ 0 [⟨1, 1⟩] ⟨0, 20⟩ =
       (if (6 : ℚ) + sampleDist ⟨0, 6⟩ ⟨0, 20⟩ ≥ DESIRED_SEGMENT_LENGTH then
         sampleInterpolate (getFactor 6 (6 + sampleDist ⟨0, 6⟩ ⟨0, 20⟩)) ⟨0, 6⟩
           ⟨0, 20⟩
       else ⟨0, 20⟩)) :=
  ⟨by norm_num [walkEnd, sampleDist, extractCoordinateFromNode,
      DESIRED_SEGMENT_LENGTH],
   getCoordinateFromCompressedRange_final_segment sampleDist sampleInterpolate
     [⟨0, 0⟩, ⟨0, 6⟩] ⟨0, 0⟩ ⟨0, 20⟩ [⟨1, 1⟩] ⟨0, 6⟩ 6
     (by norm_num [walkEnd, sampleDist, extractCoordinateFromNode,
        DESIRED_SEGMENT_LENGTH])⟩

/-- C7: for an edge with no compressed intermediate geometry,
`getRepresentativeCoordinate` returns exactly the coordinate of the far
endpoint in the traversal direction — the `from_node` coordinate when
traversing in reverse, the `to_node` coordinate otherwise — for arbitrary
distance and interpolation functions (no interpolation is performed, whatever
the edge's length relative to the target distance). -/
theorem getRepresentativeCoordinate_uncompressed
    (dist : Coordinate → Coordinate → ℚ)
    (interpolateLinear : ℚ → Coordinate → Coordinate → Coordinate)
    (from_node to_node via_edge_id : Nat) (traverse_in_reverse : Bool)
    (compressed_geometries : Nat → Option (List CompressedEdge))
    (query_nodes : List QueryNode)
    (h : compressed_geometries via_edge_id = none) :
    getRepresentativeCoordinate dist interpolateLinear from_node to_node
        via_edge_id traverse_in_reverse compressed_geometries query_nodes =
      extractCoordinateFromNode
        (query_nodes.getD (if traverse_in_reverse then from_node else to_node)
          default) := by
  simp only [getRepresentativeCoordinate, h]

/-- C7, witnessed on a reverse traversal of an uncompressed edge. -/
theorem getRepresentativeCoordinate_uncompressed_witness :
    (fun _ : Nat => (none : Option (List CompressedEdge))) 7 = none ∧
    getRepresentativeCoordinate sampleDist sampleInterpolate 0 1 7 true
        (fun _ => none) [⟨3, 4⟩, ⟨5, 6⟩] =
      extractCoordinateFromNode
        (([⟨3, 4⟩, ⟨5, 6⟩] : List QueryNode).getD (if true then 0 else 1) default) :=
  ⟨rfl,
   getRepresentativeCoordinate_uncompressed sampleDist sampleInterpolate 0 1 7
     true (fun _ => none) [⟨3, 4⟩, ⟨5, 6⟩] rfl⟩

/-- Every argument pair recorded by `getFactorCalls` along a walk that starts
below the target distance satisfies the `getFactor` preconditions. -/
theorem getFactorCalls_bounds
    (dist : Coordinate → Coordinate → ℚ) (query_nodes : List QueryNode)
    (final_coordinate : Coordinate) :
    ∀ (compressed_geometry : List CompressedEdge) (cur : Coordinate) (acc : ℚ),
      acc < DESIRED_SEGMENT_LENGTH →
      ∀ p ∈ getFactorCalls dist query_nodes cur acc compressed_geometry
          final_coordinate,
        p.1 < DESIRED_SEGMENT_LENGTH ∧ DESIRED_SEGMENT_LENGTH ≤ p.2 ∧
          0 < p.2 - p.1 := by
  intro compressed_geometry
  induction compressed_geometry with
  | nil =>
      intro cur acc hacc p hp
      simp only [getFactorCalls] at hp
      by_cases hge : acc < DESIRED_SEGMENT_LENGTH ∧
          acc + dist cur final_coordinate ≥ DESIRED_SEGMENT_LENGTH
      · rw [if_pos hge] at hp
        simp only [List.mem_singleton] at hp
        subst hp
        refine ⟨hge.1, hge.2, ?_⟩
        dsimp only
        linarith [hge.1, hge.2]
      · rw [if_neg hge] at hp
        simp at hp
  | cons entry rest ih =>
      intro cur acc hacc p hp
      simp only [getFactorCalls] at hp
      by_cases hge :
          acc + dist cur (extractCoordinateFromNode
              (query_nodes.getD entry.node_id default)) ≥ DESIRED_SEGMENT_LENGTH
      · rw [if_pos hge] at hp
        simp only [List.mem_singleton] at hp
        subst hp
        refine ⟨hacc, hge, ?_⟩
        dsimp only
        linarith [hacc, hge]
      · rw [if_neg hge] at hp
        exact ih _ _ (lt_of_not_ge hge) p hp

/-- C8: in `getRepresentativeCoordinate`, every call to `getFactor` happens in
a state where the accumulated distance so far is strictly below the 10-unit
target and the next accumulated distance is at or above it; hence the divisor
(the segment length, the difference of the two) is strictly positive, division
by zero is unreachable, and the three assertions inside `getFactor` hold on
every call. -/
theorem representativeGetFactorCalls_safe
    (dist : Coordinate → Coordinate → ℚ)
    (from_node to_node via_edge_id : Nat) (traverse_in_reverse : Bool)
    (compressed_geometries : Nat → Option (List CompressedEdge))
    (query_nodes : List QueryNode) (p : ℚ × ℚ)
    (hp : p ∈ representativeGetFactorCalls dist from_node to_node via_edge_id
        traverse_in_reverse compressed_geometries query_nodes) :
    p.1 < DESIRED_SEGMENT_LENGTH ∧ DESIRED_SEGMENT_LENGTH ≤ p.2 ∧
      0 < p.2 - p.1 := by
  simp only [representativeGetFactorCalls] at hp
  rcases hgeom : compressed_geometries via_edge_id with _ | geometry
  · rw [hgeom] at hp
    simp at hp
  · rw [hgeom] at hp
    exact getFactorCalls_bounds dist query_nodes _ _ _ 0
      (by norm_num [DESIRED_SEGMENT_LENGTH]) p hp

/-- C8, witnessed on a compressed edge whose first segment crosses the
target. -/
theorem representativeGetFactorCalls_safe_witness :
    ((0 : ℚ), (12 : ℚ)) ∈
        representativeGetFactorCalls sampleDist 0 1 5 false
          (fun _ => some [⟨1, 1⟩]) [⟨0, 0⟩, ⟨0, 12⟩] ∧
    ((0 : ℚ) < DESIRED_SEGMENT_LENGTH ∧ DESIRED_SEGMENT_LENGTH ≤ (12 : ℚ) ∧
      (0 : ℚ) < 12 - 0) :=
  ⟨by norm_num [representativeGetFactorCalls, getFactorCalls, sampleDist,
      extractCoordinateFromNode, DESIRED_SEGMENT_LENGTH],
   representativeGetFactorCalls_safe sampleDist 0 1 5 false
     (fun _ => some [⟨1, 1⟩]) [⟨0, 0⟩, ⟨0, 12⟩] (0, 12)
     (by norm_num [representativeGetFactorCalls, getFactorCalls, sampleDist,
        extractCoordinateFromNode, DESIRED_SEGMENT_LENGTH])⟩

/-- C9: on a lane string made entirely of placeholder characters, with
nonnegative counts whose sum is strictly less than the string's length,
`trimLaneString` removes exactly `count_left + count_right` characters in
total: the first `count_left` characters from the front and the last
`count_right` characters from the back. -/
theorem trimLaneString_trims_exactly (lane_string : List Char)
    (count_left count_right : Int)
    (hall : lane_string.all isLanePlaceholder = true)
    (hl : 0 ≤ count_left) (hr : 0 ≤ count_right)
    (hsum : count_left + count_right < (lane_string.length : Int)) :
    trimLaneString lane_string count_left count_right =
      (lane_string.drop count_left.toNat).take
        (lane_string.length - count_left.toNat - count_right.toNat) ∧
    (trimLaneString lane_string count_left count_right).length =
      lane_string.length - (count_left.toNat + count_right.toNat) := by
  have hmem : ∀ x ∈ lane_string, isLanePlaceholder x = true :=
    List.all_eq_true.mp hall
  have hmain : trimLaneString lane_string count_left count_right =
      (lane_string.drop count_left.toNat).take
        (lane_string.length - count_left.toNat - count_right.toNat) := by
    have hs1 : (if count_left ≠ 0 then
        if count_left < (lane_string.length : Int) ∧
           (lane_string.take count_left.toNat).all isLanePlaceholder = true then
          lane_string.drop count_left.toNat
        else lane_string
      else lane_string) = lane_string.drop count_left.toNat := by
      by_cases h0 : count_left = 0
      · simp [h0]
      · have hcond1 : count_left < (lane_string.length : Int) := by omega
        have hcond2 : (lane_string.take count_left.toNat).all isLanePlaceholder
            = true := by
          rw [List.all_eq_true]
          intro x hx
          exact hmem x (List.mem_of_mem_take hx)
        rw [if_pos h0, if_pos ⟨hcond1, hcond2⟩]
    simp only [trimLaneString]
    rw [hs1]
    by_cases h0r : count_right = 0
    · have htake : (lane_string.drop count_left.toNat).take
          (lane_string.length - count_left.toNat - count_right.toNat) =
          lane_string.drop count_left.toNat := by
        apply List.take_of_length_le
        rw [List.length_drop]
        omega
      rw [if_neg (by simp [h0r]), htake]
    · have hlen1 : (lane_string.drop count_left.toNat).length =
          lane_string.length - count_left.toNat := List.length_drop _ _
      have hcond1 : count_right <
          ((lane_string.drop count_left.toNat).length : Int) := by
        rw [hlen1]
        omega
      have hcond2 : ((lane_string.drop count_left.toNat).reverse.take
          count_right.toNat).all isLanePlaceholder = true := by
        rw [List.all_eq_true]
        intro x hx
        exact hmem x (List.mem_of_mem_drop
          ((List.mem_reverse).mp (List.mem_of_mem_take hx)))
      rw [if_pos h0r, if_pos ⟨hcond1, hcond2⟩, hlen1]
  refine ⟨hmain, ?_⟩
  rw [hmain, List.length_take, List.length_drop]
  omega

/-- C9, witnessed on the all-placeholder string "|||" with one character
trimmed from each side. -/
theorem trimLaneString_trims_exactly_witness :
    ("|||".toList).all isLanePlaceholder = true ∧ (0 : Int) ≤ 1 ∧
    (0 : Int) ≤ 1 ∧ ((1 : Int) + 1 < (("|||".toList).length : Int)) ∧
    (trimLaneString ("|||".toList) 1 1 =
       (("|||".toList).drop (1 : Int).toNat).take
         (("|||".toList).length - (1 : Int).toNat - (1 : Int).toNat) ∧
     (trimLaneString ("|||".toList) 1 1).length =
       ("|||".toList).length - ((1 : Int).toNat + (1 : Int).toNat)) :=
  ⟨by decide, by decide, by decide, by decide,
   trimLaneString_trims_exactly ("|||".toList) 1 1 (by decide) (by decide)
     (by decide) (by decide)⟩

/-- C10: for every non-empty lane string and nonnegative counts,
`trimLaneString` returns a non-empty string: a side is trimmed only when its
count is strictly smaller than the current string length (in addition to the
placeholder check), so the string can never be trimmed away completely. -/
theorem trimLaneString_ne_nil (lane_string : List Char)
    (count_left count_right : Int) (hne : lane_string ≠ [])
    (hl : 0 ≤ count_left) (hr : 0 ≤ count_right) :
    trimLaneString lane_string count_left count_right ≠ [] := by
  have hstep : ∀ (L : List Char) (cnt : Int), L ≠ [] →
      (if cnt ≠ 0 then
        if cnt < (L.length : Int) ∧
           (L.reverse.take cnt.toNat).all isLanePlaceholder = true then
          L.take (L.length - cnt.toNat)
        else L
      else L) ≠ [] := by
    intro L cnt hL
    split_ifs with h1 h2
    · have hblt : cnt.toNat < L.length := by
        have hLpos := List.length_pos.mpr hL
        have := h2.1
        omega
      apply List.length_pos.mp
      rw [List.length_take]
      omega
    · exact hL
    · exact hL
  have hleft : (if count_left ≠ 0 then
      if count_left < (lane_string.length : Int) ∧
         (lane_string.take count_left.toNat).all isLanePlaceholder = true then
        lane_string.drop count_left.toNat
      else lane_string
    else lane_string) ≠ [] := by
    split_ifs with h1 h2
    · apply List.length_pos.mp
      rw [List.length_drop]
      have := h2.1
      omega
    · exact hne
    · exact hne
  simp only [trimLaneString]
  exact hstep _ count_right hleft

/-- C10, witnessed on the single-placeholder string "|" with counts that cover
the whole string. -/
theorem trimLaneString_ne_nil_witness :
    ("|".toList ≠ []) ∧ (0 : Int) ≤ 1 ∧ (0 : Int) ≤ 1 ∧
    trimLaneString ("|".toList) 1 1 ≠ [] :=
  ⟨by decide, by decide, by decide,
   trimLaneString_ne_nil ("|".toList) 1 1 (by decide) (by decide) (by decide)⟩

end Guidance
